import Mathlib

/-!
Verification development for the local-docker build orchestration scripts
(src/scripts/build-minecraft-images.py).  The Python source is shallowly
embedded: dictionaries become association lists (insertion order preserved,
assignment updates in place or appends), YAML documents become a small
inductive value type, machine-level hashing (MD5) is implemented over byte
lists as natural numbers reduced mod 2^32, and the build/merge control flow
becomes total Lean functions over explicit outcome environments.
-/

namespace LocalDocker

/-! ## Association lists: the embedding of Python dicts.

Python dict semantics relevant here: lookup returns the (unique) binding,
`d[k] = v` overwrites an existing binding in place (keeping its position) or
appends a new one at the end, `k in d` is membership. -/

def assocGet? {κ α : Type} [DecidableEq κ] : List (κ × α) → κ → Option α
  | [], _ => none
  | (k', v) :: rest, k => if k' = k then some v else assocGet? rest k

def assocSet {κ α : Type} [DecidableEq κ] : List (κ × α) → κ → α → List (κ × α)
  | [], k, v => [(k, v)]
  | (k', v') :: rest, k, v =>
      if k' = k then (k, v) :: rest else (k', v') :: assocSet rest k v

def assocMem {κ α : Type} [DecidableEq κ] (d : List (κ × α)) (k : κ) : Bool :=
  (assocGet? d k).isSome

theorem assocGet?_assocSet_ne {κ α : Type} [DecidableEq κ]
    (d : List (κ × α)) (k k' : κ) (v : α) (h : k' ≠ k) :
    assocGet? (assocSet d k' v) k = assocGet? d k := by
  induction d with
  | nil => simp [assocSet, assocGet?, h]
  | cons hd tl ih =>
      obtain ⟨k₀, v₀⟩ := hd
      by_cases hk : k₀ = k'
      · subst hk
        simp [assocSet, assocGet?, h]
      · simp only [assocSet, if_neg hk]
        by_cases hk2 : k₀ = k
        · simp [assocGet?, hk2]
        · simp [assocGet?, hk2, ih]

theorem assocGet?_assocSet_same {κ α : Type} [DecidableEq κ]
    (d : List (κ × α)) (k : κ) (v : α) :
    assocGet? (assocSet d k v) k = some v := by
  induction d with
  | nil => simp [assocSet, assocGet?]
  | cons hd tl ih =>
      obtain ⟨k₀, v₀⟩ := hd
      by_cases hk : k₀ = k
      · simp [assocSet, assocGet?, hk]
      · simp [assocSet, assocGet?, hk, ih]

theorem assocGet?_isSome_assocSet {κ α : Type} [DecidableEq κ]
    (d : List (κ × α)) (k k' : κ) (v : α)
    (h : (assocGet? d k).isSome) :
    (assocGet? (assocSet d k' v) k).isSome := by
  by_cases hk : k' = k
  · subst hk; simp [assocGet?_assocSet_same]
  · rwa [assocGet?_assocSet_ne _ _ _ _ hk]

/-! ## Identifier sanitization.

build-minecraft-images.py uses three per-character sanitizers:
* line 354 / 732: keep characters with `c.isalnum() or c in ('-', '_')`;
* line 547: the same filter followed by `.lower()` (Docker tag from the
  project id);
* line 737: `.lower()` first, then the same filter (compose service name).

The definitions in this section model the Unicode-aware Python character
functions on the ASCII range only: they agree with Python exactly on
ASCII input, which is what the identifiers fed to them by the build and
merge pipeline contain, and they are the forms consumed by the service
name, container name and tag definitions below. The full Unicode
behaviour of the sanitizers — under which the line-547 sanitizer is NOT
idempotent because str.lower maps U+0130 to two characters — is modelled
separately (pyIsAlnumChar, pyLowerChar, pySanitizeId and friends) in the
claim C7 section. -/

def allowedChar (c : Char) : Bool :=
  (48 ≤ c.toNat && c.toNat ≤ 57) ||
  (65 ≤ c.toNat && c.toNat ≤ 90) ||
  (97 ≤ c.toNat && c.toNat ≤ 122) ||
  c.toNat = 45 || c.toNat = 95

def lowerChar (c : Char) : Char :=
  if 65 ≤ c.toNat && c.toNat ≤ 90 then Char.ofNat (c.toNat + 32) else c

def upperChar (c : Char) : Char :=
  if 97 ≤ c.toNat && c.toNat ≤ 122 then Char.ofNat (c.toNat - 32) else c

/-- Line 354 / 732: keep only alphanumerics, hyphens and underscores. -/
def sanitizeKeep (s : String) : String :=
  ⟨s.data.filter allowedChar⟩

/-- Line 547: filter the allowed characters, then lower-case the result. -/
def sanitizeId (s : String) : String :=
  ⟨(s.data.filter allowedChar).map lowerChar⟩

/-- Line 737: lower-case first, then filter the allowed characters. -/
def sanitizeServiceLower (s : String) : String :=
  ⟨(s.data.map lowerChar).filter allowedChar⟩

/-- Python's str.upper at ASCII fidelity, used on database types (line 660). -/
def strUpper (s : String) : String :=
  ⟨s.data.map upperChar⟩

/-- The whitespace characters removed by Python's str.strip, at ASCII
fidelity. -/
def isPyWhitespace (c : Char) : Bool :=
  c.toNat = 32 || c.toNat = 9 || c.toNat = 10 || c.toNat = 13 ||
  c.toNat = 11 || c.toNat = 12

/-- Python's str.strip: remove leading and trailing whitespace. -/
def strStrip (s : String) : String :=
  ⟨((s.data.dropWhile isPyWhitespace).reverse.dropWhile isPyWhitespace).reverse⟩

theorem toNat_ofNat_valid (n : Nat) (h : n < 55296) : (Char.ofNat n).toNat = n := by
  have hv : n.isValidChar := Or.inl h
  simp [Char.ofNat, hv, Char.ofNatAux, Char.toNat, UInt32.toNat]

theorem filter_eq_self_of_mem {α : Type} (p : α → Bool) :
    ∀ (l : List α), (∀ a ∈ l, p a = true) → l.filter p = l
  | [], _ => rfl
  | a :: rest, h => by
      simp only [List.filter_cons, h a (by simp), if_true]
      rw [filter_eq_self_of_mem p rest (fun b hb => h b (by simp [hb]))]

/-! ## MD5 and deterministic database ports.

create_docker_compose (build-minecraft-images.py lines 969-988) assigns each
database service a port computed from int(hashlib.md5(name.encode())
.hexdigest(), 16): a type-specific base plus the digest value mod 100.
MD5 (RFC 1321) is implemented below over byte lists; 32-bit arithmetic is
Nat reduced mod 2^32. -/

def md5S : List Nat :=
  [7, 12, 17, 22, 7, 12, 17, 22, 7, 12, 17, 22, 7, 12, 17, 22,
   5, 9, 14, 20, 5, 9, 14, 20, 5, 9, 14, 20, 5, 9, 14, 20,
   4, 11, 16, 23, 4, 11, 16, 23, 4, 11, 16, 23, 4, 11, 16, 23,
   6, 10, 15, 21, 6, 10, 15, 21, 6, 10, 15, 21, 6, 10, 15, 21]

def md5K : List Nat :=
  [3614090360, 3905402710, 606105819, 3250441966, 4118548399, 1200080426,
   2821735955, 4249261313, 1770035416, 2336552879, 4294925233, 2304563134,
   1804603682, 4254626195, 2792965006, 1236535329, 4129170786, 3225465664,
   643717713, 3921069994, 3593408605, 38016083, 3634488961, 3889429448,
   568446438, 3275163606, 4107603335, 1163531501, 2850285829, 4243563512,
   1735328473, 2368359562, 4294588738, 2272392833, 1839030562, 4259657740,
   2763975236, 1272893353, 4139469664, 3200236656, 681279174, 3936430074,
   3572445317, 76029189, 3654602809, 3873151461, 530742520, 3299628645,
   4096336452, 1126891415, 2878612391, 4237533241, 1700485571, 2399980690,
   4293915773, 2240044497, 1873313359, 4264355552, 2734768916, 1309151649,
   4149444226, 3174756917, 718787259, 3951481745]

def w32 : Nat := 4294967296

def rotl32 (x n : Nat) : Nat :=
  ((x <<< n) ||| (x >>> (32 - n))) % w32

def leBytes : Nat → Nat → List Nat
  | 0, _ => []
  | count + 1, v => (v % 256) :: leBytes count (v / 256)

def leWord (bytes : List Nat) : Nat :=
  bytes.foldr (fun b acc => acc * 256 + b) 0

def chunkWords (chunk : List Nat) : List Nat :=
  (List.range 16).map (fun i => leWord ((chunk.drop (4 * i)).take 4))

def md5Round (m : List Nat) (st : Nat × Nat × Nat × Nat) (i : Nat) :
    Nat × Nat × Nat × Nat :=
  let (a, b, c, d) := st
  let nb : Nat := w32 - 1
  let (f, g) :=
    if i < 16 then ((b &&& c) ||| ((nb ^^^ b) &&& d), i)
    else if i < 32 then ((d &&& b) ||| ((nb ^^^ d) &&& c), (5 * i + 1) % 16)
    else if i < 48 then (b ^^^ c ^^^ d, (3 * i + 5) % 16)
    else (c ^^^ (b ||| (nb ^^^ d)), (7 * i) % 16)
  let f2 := (f + a + md5K.getD i 0 + m.getD g 0) % w32
  (d, (b + rotl32 f2 (md5S.getD i 0)) % w32, b, c)

def md5Chunk (st : Nat × Nat × Nat × Nat) (chunk : List Nat) :
    Nat × Nat × Nat × Nat :=
  let m := chunkWords chunk
  let (a, b, c, d) := (List.range 64).foldl (md5Round m) st
  let (a0, b0, c0, d0) := st
  ((a0 + a) % w32, (b0 + b) % w32, (c0 + c) % w32, (d0 + d) % w32)

def chunks64Aux : Nat → List Nat → List (List Nat)
  | 0, _ => []
  | _ + 1, [] => []
  | fuel + 1, l => l.take 64 :: chunks64Aux fuel (l.drop 64)

def md5Pad (msg : List Nat) : List Nat :=
  let padZeros := (119 - msg.length % 64) % 64
  msg ++ [128] ++ List.replicate padZeros 0 ++ leBytes 8 (8 * msg.length)

def md5Digest (msg : List Nat) : List Nat :=
  let padded := md5Pad msg
  let (a, b, c, d) :=
    (chunks64Aux padded.length padded).foldl md5Chunk
      (1732584193, 4023233417, 2562383102, 271733878)
  leBytes 4 a ++ leBytes 4 b ++ leBytes 4 c ++ leBytes 4 d

/-- The value of int(hashlib.md5(bytes).hexdigest(), 16): the digest bytes
read as a big-endian number. -/
def md5Int (msg : List Nat) : Nat :=
  (md5Digest msg).foldl (fun acc b => acc * 256 + b) 0

/-- UTF-8 encoding of one character, the embedding of str.encode(). -/
def utf8Bytes (c : Char) : List Nat :=
  let n := c.toNat
  if n < 128 then [n]
  else if n < 2048 then [192 ||| (n >>> 6), 128 ||| (n &&& 63)]
  else if n < 65536 then
    [224 ||| (n >>> 12), 128 ||| ((n >>> 6) &&& 63), 128 ||| (n &&& 63)]
  else
    [240 ||| (n >>> 18), 128 ||| ((n >>> 12) &&& 63),
     128 ||| ((n >>> 6) &&& 63), 128 ||| (n &&& 63)]

def strBytes (s : String) : List Nat :=
  (s.data.map utf8Bytes).flatten

/-- Lines 969-974: predictable MongoDB port, 27018 + (md5 mod 100). -/
def get_mongo_port (db_name : String) : Nat :=
  27018 + md5Int (strBytes db_name) % 100

/-- Lines 976-981: predictable PostgreSQL port, 5433 + (md5 mod 100). -/
def get_postgres_port (db_name : String) : Nat :=
  5433 + md5Int (strBytes db_name) % 100

/-- Lines 983-988: predictable MySQL port, 3307 + (md5 mod 100). -/
def get_mysql_port (db_name : String) : Nat :=
  3307 + md5Int (strBytes db_name) % 100

/-! ## Database configuration scan (create_databases_from_configs,
build-minecraft-images.py lines 630-696).

Each project directory is scanned for YAML files under config/databases.
A parsed file is either unreadable/empty (skipped) or yields the raw
databaseName and type fields (missing fields read as ""). A configuration
is kept when both stripped fields are non-empty and the name has not been
seen before; later files with an already-seen name are skipped. -/

structure RawDb where
  databaseName : String
  dbType : String
deriving DecidableEq

structure DbInfo where
  name : String
  dbType : String
  file : String
  project : String
deriving DecidableEq

/-- One scanned project: its directory name and its YAML files under
config/databases, in scan order, each with the parse result (none models
an empty document or a parse error, both of which the script skips). -/
structure ScanProject where
  pname : String
  manifests : List (String × Option RawDb)

/-- Processing of one YAML file (lines 650-687): the body of the inner loop. -/
def dbStep (pname : String) (st : List String × List DbInfo)
    (entry : String × Option RawDb) : List String × List DbInfo :=
  match entry.2 with
  | none => st
  | some raw =>
      let name := strStrip raw.databaseName
      let ty := strUpper (strStrip raw.dbType)
      if name = "" then st
      else if ty = "" then st
      else if name ∈ st.1 then st
      else (st.1 ++ [name], st.2 ++ [⟨name, ty, entry.1, pname⟩])

/-- Lines 630-696: scan all projects in order, first occurrence of each
database name wins, duplicates are skipped. -/
def create_databases_from_configs (projects : List ScanProject) : List DbInfo :=
  (projects.foldl
    (fun st p => p.manifests.foldl (dbStep p.pname) st) ([], [])).2

/-- All scanned files, flattened in the fixed project-iteration order. -/
def flattenManifests (projects : List ScanProject) :
    List (String × String × Option RawDb) :=
  projects.flatMap (fun p => p.manifests.map (fun e => (p.pname, e)))

/-- The valid entries of a flattened scan: files that parsed and have
non-empty stripped name and type, in scan order, duplicates included. -/
def validEntries (l : List (String × String × Option RawDb)) : List DbInfo :=
  l.filterMap (fun x =>
    match x.2.2 with
    | none => none
    | some raw =>
        let name := strStrip raw.databaseName
        let ty := strUpper (strStrip raw.dbType)
        if name = "" then none
        else if ty = "" then none
        else some ⟨name, ty, x.2.1, x.1⟩)

/-- Reference first-occurrence-wins filter over valid entries. -/
def dedupFirst (seen : List String) : List DbInfo → List DbInfo
  | [] => []
  | d :: rest =>
      if d.name ∈ seen then dedupFirst seen rest
      else d :: dedupFirst (d.name :: seen) rest

def flatStep (st : List String × List DbInfo)
    (x : String × String × Option RawDb) : List String × List DbInfo :=
  dbStep x.1 st (x.2)

theorem foldl_manifests_eq_flat (projects : List ScanProject) :
    ∀ st, projects.foldl (fun st p => p.manifests.foldl (dbStep p.pname) st) st
      = (flattenManifests projects).foldl flatStep st := by
  induction projects with
  | nil => intro st; rfl
  | cons p rest ih =>
      intro st
      simp only [List.foldl_cons, flattenManifests, List.flatMap_cons,
        List.foldl_append, ih]
      congr 1
      rw [List.foldl_map]
      rfl

theorem dedupFirst_congr (l : List DbInfo) :
    ∀ s₁ s₂, (∀ n, n ∈ s₁ ↔ n ∈ s₂) → dedupFirst s₁ l = dedupFirst s₂ l := by
  induction l with
  | nil => intro _ _ _; rfl
  | cons d rest ih =>
      intro s₁ s₂ hext
      by_cases hmem : d.name ∈ s₁
      · simp [dedupFirst, hmem, (hext d.name).mp hmem, ih _ _ hext]
      · have hmem₂ : d.name ∉ s₂ := fun h => hmem ((hext d.name).mpr h)
        simp only [dedupFirst, if_neg hmem, if_neg hmem₂]
        rw [ih (d.name :: s₁) (d.name :: s₂) (by intro n; simp [hext n])]

theorem flatStep_spec (l : List (String × String × Option RawDb)) :
    ∀ seen acc,
      (l.foldl flatStep (seen, acc)).2 = acc ++ dedupFirst seen (validEntries l) ∧
      ∀ n, n ∈ (l.foldl flatStep (seen, acc)).1 ↔
        n ∈ seen ∨ n ∈ (dedupFirst seen (validEntries l)).map DbInfo.name := by
  induction l with
  | nil => intro seen acc; simp [validEntries, dedupFirst]
  | cons x rest ih =>
      intro seen acc
      obtain ⟨pname, fname, raw?⟩ := x
      match raw? with
      | none =>
          simpa [flatStep, dbStep, validEntries, List.filterMap_cons] using
            ih seen acc
      | some raw =>
          by_cases hname : strStrip raw.databaseName = ""
          · simpa [flatStep, dbStep, validEntries, List.filterMap_cons, hname]
              using ih seen acc
          · by_cases hty : strUpper (strStrip raw.dbType) = ""
            · simpa [flatStep, dbStep, validEntries, List.filterMap_cons,
                hname, hty] using ih seen acc
            · by_cases hseen : strStrip raw.databaseName ∈ seen
              · simpa [flatStep, dbStep, validEntries, List.filterMap_cons,
                  hname, hty, hseen, dedupFirst] using ih seen acc
              · have hstep : flatStep (seen, acc) (pname, fname, some raw)
                    = (seen ++ [strStrip raw.databaseName],
                       acc ++ [⟨strStrip raw.databaseName, strUpper (strStrip raw.dbType),
                         fname, pname⟩]) := by
                  simp [flatStep, dbStep, hname, hty, hseen]
                have hvalid : validEntries ((pname, fname, some raw) :: rest)
                    = (⟨strStrip raw.databaseName, strUpper (strStrip raw.dbType),
                        fname, pname⟩ : DbInfo) :: validEntries rest := by
                  simp [validEntries, List.filterMap_cons, hname, hty]
                have hdedup : dedupFirst seen
                      ((⟨strStrip raw.databaseName, strUpper (strStrip raw.dbType),
                        fname, pname⟩ : DbInfo) :: validEntries rest)
                    = (⟨strStrip raw.databaseName, strUpper (strStrip raw.dbType),
                        fname, pname⟩ : DbInfo)
                      :: dedupFirst (strStrip raw.databaseName :: seen)
                          (validEntries rest) := by
                  simp [dedupFirst, hseen]
                have hcongr :
                    dedupFirst (strStrip raw.databaseName :: seen)
                        (validEntries rest)
                      = dedupFirst (seen ++ [strStrip raw.databaseName])
                          (validEntries rest) := by
                  apply dedupFirst_congr
                  intro n; simp; tauto
                obtain ⟨h2, h1⟩ := ih (seen ++ [strStrip raw.databaseName])
                  (acc ++ [(⟨strStrip raw.databaseName, strUpper (strStrip raw.dbType),
                    fname, pname⟩ : DbInfo)])
                rw [List.foldl_cons, hstep, hvalid]
                constructor
                · rw [h2, hdedup, hcongr]
                  simp
                · intro n
                  rw [h1 n, hdedup, hcongr]
                  simp
                  tauto

theorem dedupFirst_mem_not_seen (l : List DbInfo) :
    ∀ seen d, d ∈ dedupFirst seen l → d.name ∉ seen := by
  induction l with
  | nil => intro seen d h; simp [dedupFirst] at h
  | cons x rest ih =>
      intro seen d h
      by_cases hx : x.name ∈ seen
      · simp only [dedupFirst, if_pos hx] at h
        exact ih seen d h
      · simp only [dedupFirst, if_neg hx] at h
        rcases List.mem_cons.mp h with heq | hmem
        · subst heq; exact hx
        · have := ih (x.name :: seen) d hmem
          intro hin
          exact this (by simp [hin])

theorem dedupFirst_find (l : List DbInfo) :
    ∀ seen d, d ∈ dedupFirst seen l → d.name ∉ seen →
      l.find? (fun e => e.name == d.name) = some d := by
  induction l with
  | nil => intro seen d h _; simp [dedupFirst] at h
  | cons x rest ih =>
      intro seen d h hns
      by_cases hx : x.name ∈ seen
      · simp only [dedupFirst, if_pos hx] at h
        have hne : x.name ≠ d.name := fun he => hns (he ▸ hx)
        rw [List.find?_cons_of_neg _ (by simpa using hne)]
        exact ih seen d h hns
      · simp only [dedupFirst, if_neg hx] at h
        rcases List.mem_cons.mp h with heq | hmem
        · subst heq
          rw [List.find?_cons_of_pos _ (by simp)]
        · have hnotin : d.name ∉ x.name :: seen :=
            dedupFirst_mem_not_seen rest (x.name :: seen) d hmem
          have hne : x.name ≠ d.name := by
            intro he; exact hnotin (by simp [he])
          rw [List.find?_cons_of_neg _ (by simpa using hne)]
          exact ih _ d hmem hnotin

theorem dedupFirst_names_nodup (l : List DbInfo) :
    ∀ seen, ((dedupFirst seen l).map DbInfo.name).Nodup := by
  induction l with
  | nil => intro _; simp [dedupFirst]
  | cons x rest ih =>
      intro seen
      by_cases hx : x.name ∈ seen
      · simp only [dedupFirst, if_pos hx]; exact ih seen
      · simp only [dedupFirst, if_neg hx, List.map_cons, List.nodup_cons]
        refine ⟨?_, ih _⟩
        intro hmem
        rcases List.mem_map.mp hmem with ⟨d, hd, hnm⟩
        exact dedupFirst_mem_not_seen rest (x.name :: seen) d hd (by simp [hnm])

/-! ## Plugin downloads (download_plugin, lines 121-219).

Each known library has up to three sources tried in order (Modrinth API,
Spiget API, direct fallback URL); every attempt catches its own errors and
the function returns a plain Bool. An unknown library name returns False
immediately. Network outcomes are an explicit environment. -/

structure PluginConfig where
  modrinth_id : Option String
  spiget_id : Option String
  fallback : Option String

def plugin_configs : List (String × PluginConfig) :=
  [("PROTOCOLLIB",
      ⟨some "protocolib", some "86311",
       some "https://github.com/dmulloy2/ProtocolLib/releases/latest/download/ProtocolLib.jar"⟩),
   ("LIBSDISGUISES",
      ⟨none, some "32453",
       some "https://github.com/libraryaddict/LibsDisguises/releases/latest/download/LibsDisguises.jar"⟩),
   ("DECENTHOLOGRAMS",
      ⟨none, some "96927",
       some "https://github.com/Andre601/DecentHolograms/releases/latest/download/DecentHolograms.jar"⟩),
   ("FLOODGATE",
      ⟨some "floodgate", none,
       some "https://download.geysermc.org/v2/projects/floodgate/versions/latest/builds/latest/downloads/spigot"⟩)]

/-- Whether each download source would produce a valid (large enough) file. -/
structure DownloadEnv where
  modrinthOk : Bool
  spigetOk : Bool
  fallbackOk : Bool

/-- Lines 121-219: try the configured sources in order; unknown library
names are reported with a warning and False. Total: never raises. -/
def download_plugin (lib_name : String) (net : DownloadEnv) : Bool :=
  match assocGet? plugin_configs lib_name with
  | none => false
  | some cfg =>
      (cfg.modrinth_id.isSome && net.modrinthOk) ||
      (cfg.spiget_id.isSome && net.spigetOk) ||
      (cfg.fallback.isSome && net.fallbackOk)

/-! ## The per-project build task (build_project_image, lines 325-607).

The parsed manifest, the success of the external steps, and whether some
library in the try block raises are an explicit environment; the function
returns the structured result (None on failure, like the Python), whether
the scratch workspace (tempfile.mkdtemp) was created, whether it was
removed again (shutil.rmtree runs only in the except handler, lines
603-607), and the content of the .mineplex-common-name identity marker
file when its write step (lines 491-497) is reached. -/

structure GameData where
  project_id : String
  namespace_id : String
  game_name : Option String
  display_name : Option String
  libraries : List String
  secret_env_keys : List String
deriving DecidableEq

structure BuildEnv where
  directoryName : String
  dirExists : Bool
  gamePropsExists : Bool
  gameData : GameData
  engineBridgeOk : Bool
  projectJarOk : Bool
  libDownloadOk : String → Bool
  dockerBuildOk : Bool
  raisesException : Bool

structure BuildResult where
  project_id : String
  game_name : String
  display_name : String
  image_name : String
  image_tags : List String
  port : Nat
deriving DecidableEq

structure BuildOutcome where
  result : Option BuildResult
  workspaceCreated : Bool
  workspaceRemoved : Bool
  markerContent : Option String
deriving DecidableEq

/-- Line 556: tag derived from the game name, lower-cased with spaces
replaced by hyphens. -/
def tagFromGameName (s : String) : String :=
  ⟨(s.data.map lowerChar).map (fun c => if c = ' ' then '-' else c)⟩

/-- Whether a character matches the class [0-9a-fk-or] of the color-code
pattern at line 564, compiled with IGNORECASE: the digits, the range a-f,
the range k-o (so also l, m, n) and r, in either case. -/
def isColorClassChar (c : Char) : Bool :=
  let n := (lowerChar c).toNat
  (48 ≤ n && n ≤ 57) || (97 ≤ n && n ≤ 102) || (107 ≤ n && n ≤ 111) ||
  n = 114

/-- Line 564: re.sub removes every occurrence of the two literal marker
characters of the pattern (code points 3618 and 3591 in the source file)
followed by one class character, scanning left to right. -/
def stripColorCodes : List Char → List Char
  | a :: b :: c :: rest =>
      if a.toNat = 3618 && b.toNat = 3591 && isColorClassChar c then
        stripColorCodes rest
      else a :: stripColorCodes (b :: c :: rest)
  | l => l

/-- Lines 564-566: strip color codes, keep ASCII alphanumerics and -, _,
then lower-case. -/
def cleanDisplay (s : String) : String :=
  ⟨((stripColorCodes s.data).filter allowedChar).map lowerChar⟩

/-- Lines 351-355: the deterministic container name, computed from the
game name (manifest field game.name, directory name when absent). -/
def containerNameOf (gd : GameData) (directoryName : String) : String :=
  sanitizeKeep (gd.game_name.getD directoryName) ++ "-1"

/-- Lines 325-607: the control flow of one build task. -/
def build_project_image (env : BuildEnv) (port : Nat) : BuildOutcome :=
  if !env.dirExists then ⟨none, false, false, none⟩
  else if !env.gamePropsExists then ⟨none, false, false, none⟩
  else if env.gameData.project_id = "" then ⟨none, false, false, none⟩
  else
    -- line 360: the scratch workspace is created here
    let gd := env.gameData
    let gameName := gd.game_name.getD env.directoryName
    let contName := containerNameOf gd env.directoryName
    if env.raisesException then ⟨none, true, true, none⟩
    else if !env.engineBridgeOk then ⟨none, true, false, none⟩
    else if !env.projectJarOk then ⟨none, true, false, none⟩
    else
      -- lines 424-433: dependency download results are discarded
      let _libResults := gd.libraries.map env.libDownloadOk
      let _floodgate := env.libDownloadOk "FLOODGATE"
      -- lines 491-497: the identity marker file is written
      if !env.dockerBuildOk then ⟨none, true, false, some contName⟩
      else
        let image_base := "local-minecraft-" ++ sanitizeId gd.project_id
        let display_name := gd.display_name.getD ""
        let clean := cleanDisplay display_name
        let tags :=
          [image_base ++ ":latest"]
          ++ (if gameName ≠ "" then [image_base ++ ":" ++ tagFromGameName gameName]
              else [])
          ++ (if display_name ≠ "" && clean ≠ "" then [image_base ++ ":" ++ clean]
              else [])
        ⟨some ⟨gd.project_id, gameName, display_name, image_base, tags, port⟩,
         true, false, some contName⟩

/-! ## The build coordinator (main, lines 1271-1293).

One future per project; as futures complete (in arbitrary order) each
non-None result is stored in a dict keyed by submission index; finally the
keys are sorted and the values read back in index order. The per-index
outcomes and the completion order are explicit parameters. -/

def insertSorted (n : Nat) : List Nat → List Nat
  | [] => [n]
  | m :: rest => if n ≤ m then n :: m :: rest else m :: insertSorted n rest

/-- The embedding of the Python sorted() builtin on index lists. -/
def sortNat (l : List Nat) : List Nat := l.foldr insertSorted []

/-- Lines 1282-1286: as one future completes, a non-None result is stored
under its submission index; a None (failed build) is dropped. -/
def collectStep {α : Type} (outcomes : List (Option α))
    (d : List (Nat × α)) (i : Nat) : List (Nat × α) :=
  match outcomes.getD i none with
  | some r => assocSet d i r
  | none => d

/-- Lines 1271-1289: run all futures, then read the dict back in sorted
index order. -/
def collectResults {α : Type} (outcomes : List (Option α)) (order : List Nat) :
    List α :=
  let completed := order.foldl (collectStep outcomes) ([] : List (Nat × α))
  (sortNat (completed.map Prod.fst)).filterMap (fun i => assocGet? completed i)

/-! ## Topology persistence (create_docker_compose, lines 1185-1186).

The merged document is persisted by opening the existing compose file with
mode w, which truncates it in place, and streaming the serialized document
into the same file; no separate location or atomic replacement is used.
An interruption is modelled as executing only a prefix of the write
operations. -/

inductive WriteOp where
  | truncate
  | append (chunk : String)

def applyOp (file : String) : WriteOp → String
  | .truncate => ""
  | .append chunk => file ++ chunk

def runOps (file : String) (ops : List WriteOp) : String := ops.foldl applyOp file

/-- Lines 1185-1186: open(compose_file, 'w') truncates the prior file, then
yaml.dump writes the new content into it. -/
def persistOps (content : String) : List WriteOp :=
  [.truncate, .append content]

/-! ## The topology merge (create_docker_compose, lines 698-1188).

YAML documents are embedded as a small inductive value type; the services,
networks and volumes sections of the compose file are association lists of
Yaml values.  Network side effects of the function (downloading the
Velocity plugin and Geyser) change no compose data and are not modelled. -/

inductive Yaml where
  | null
  | b (v : Bool)
  | n (v : Int)
  | s (v : String)
  | arr (items : List Yaml)
  | obj (fields : List (String × Yaml))

structure ComposeData where
  services : List (String × Yaml)
  networks : List (String × Yaml)
  volumes : List (String × Yaml)

/-- Line 706: infrastructure services preserved from the prior file. -/
def infrastructure_services : List String :=
  ["mongodb", "kafka", "kafka-ui", "zookeeper", "velocity"]

/-- Lines 719-723: every preserved service is given deploy.replicas = 1
when those keys are absent. -/
def ensureReplicas : Yaml → Yaml
  | .obj fields =>
      let fields1 :=
        if assocMem fields "deploy" then fields
        else assocSet fields "deploy" (.obj [])
      match assocGet? fields1 "deploy" with
      | some (.obj d) =>
          if assocMem d "replicas" then .obj fields1
          else .obj (assocSet fields1 "deploy" (.obj (assocSet d "replicas" (.n 1))))
      | _ => .obj fields1
  | y => y

/-- Checks that a service entry already carries deploy.replicas, the case
in which lines 719-723 change nothing. -/
def hasDeployReplicas : Yaml → Bool
  | .obj fields =>
      match assocGet? fields "deploy" with
      | some (.obj d) => assocMem d "replicas"
      | _ => false
  | _ => false

/-- The build-result record consumed by create_docker_compose (the dict
produced by build_project_image plus prompt results). -/
structure ProjectInfo where
  project_id : String
  game_name : String
  display_name : String
  image_name : String
  image_tags : List String
  port : Nat
  namespace_id : String
  visibility : String
  category : String
  secret_env_keys : List String
  secret_env_vars : List (String × String)

/-- Line 737-738: the compose service name of a built project. -/
def mcServiceName (p : ProjectInfo) : String :=
  sanitizeServiceLower p.game_name

/-- Lines 732-733: the container name stamped into labels and POD_NAME. -/
def mcContainerName (p : ProjectInfo) : String :=
  sanitizeKeep p.game_name ++ "-1"

/-- Lines 750-786: the environment block of a game service. -/
def mcEnvironment (p : ProjectInfo) : List (String × Yaml) :=
  let base : List (String × Yaml) :=
    [("EULA", .s "TRUE"), ("TYPE", .s "PAPER"), ("VERSION", .s "1.21.8"),
     ("MEMORY", .s "2G"), ("ONLINE_MODE", .s "FALSE"), ("DEBUG", .s "true"),
     ("DEBUG_PORT", .s "5005"), ("GENERATE_STRUCTURES", .s "false"),
     ("ALLOW_NETHER", .s "false"), ("ALLOW_FLIGHT", .s "true"),
     ("SPAWN_PROTECTION", .s "0"), ("LEVEL_TYPE", .s "FLAT"),
     ("LEVEL_TYPE_FLAT_GENERATOR_SETTINGS", .s "\x7b\x7d"),
     ("POD_NAME", .s (mcContainerName p)),
     ("MINEPLEX_PROJECT_ID", .s p.project_id),
     ("DEV_MODE", .s "true")]
    ++ (if p.namespace_id ≠ "" then [("MINEPLEX_NAMESPACE_ID", .s p.namespace_id)]
        else [])
    ++ [("MINEPLEX_ENVIRONMENT", .s "")]
  if p.secret_env_keys ≠ [] then
    p.secret_env_vars.foldl (fun e kv => assocSet e kv.1 (.s kv.2)) base
  else base

/-- Lines 795-801 and 832-837: labels of a game service, including the
conditional metadata labels added after insertion. -/
def mcLabels (p : ProjectInfo) : List (String × Yaml) :=
  let l0 : List (String × Yaml) :=
    [("com.plexverse.project.id", .s p.project_id),
     ("com.plexverse.project.name", .s p.game_name),
     ("com.plexverse.project.display_name", .s p.display_name),
     ("com.plexverse.project.port", .s (toString p.port)),
     ("com.plexverse.container.name", .s (mcContainerName p))]
  let l1 := if p.namespace_id ≠ "" then
      assocSet l0 "com.plexverse.namespace.id" (.s p.namespace_id) else l0
  let l2 := if p.visibility ≠ "" then
      assocSet l1 "com.plexverse.game.visibility" (.s p.visibility) else l1
  if p.category ≠ "" then
    assocSet l2 "com.plexverse.game.category" (.s p.category) else l2

def restartPolicyObj : Yaml :=
  .obj [("condition", .s "on-failure"), ("delay", .s "5s"),
        ("max_attempts", .n 3)]

/-- Lines 804-815: the deploy section of a game service. -/
def mcDeploy : Yaml :=
  .obj [("replicas", .n 1), ("restart_policy", restartPolicyObj),
        ("placement", .obj [("constraints", .arr [])])]

/-- Lines 817-827: the readiness healthcheck of a game service. -/
def mcHealthcheck : Yaml :=
  .obj [("test", .arr [.s "CMD-SHELL",
          .s "grep -q \"Game state is now ready (isReady() = true). Allowing player logins and unregistering ReadyStateModule.\" /data/logs/latest.log || exit 1"]),
        ("interval", .s "10s"), ("timeout", .s "5s"), ("retries", .n 30),
        ("start_period", .s "60s")]

/-- Lines 726-837: the full managed service entry of one built project. -/
def mcServiceSpec (p : ProjectInfo) : Yaml :=
  let image_tag := p.image_tags.headD (p.image_name ++ ":latest")
  .obj [("image", .s image_tag),
        ("environment", .obj (mcEnvironment p)),
        ("networks", .arr [.s "local-docker-network"]),
        ("restart", .s "on-failure"),
        ("labels", .obj (mcLabels p)),
        ("deploy", mcDeploy),
        ("healthcheck", mcHealthcheck)]

def dbDeploy : Yaml :=
  .obj [("replicas", .n 1), ("restart_policy", restartPolicyObj)]

/-- Lines 996-1029: a MongoDB resource service. -/
def mongoSpec (db_name : String) : Yaml :=
  .obj [("image", .s "mongo:7.0"),
        ("ports", .arr [.obj [("target", .n 27017),
          ("published", .n (get_mongo_port db_name)),
          ("protocol", .s "tcp"), ("mode", .s "ingress")]]),
        ("environment", .obj [("MONGO_INITDB_ROOT_USERNAME", .s "local-engine"),
          ("MONGO_INITDB_ROOT_PASSWORD", .s "local-engine"),
          ("MONGO_INITDB_DATABASE", .s db_name)]),
        ("volumes", .arr [.obj [("type", .s "volume"),
          ("source", .s ("mongodb_data_" ++ db_name)),
          ("target", .s "/data/db")]]),
        ("healthcheck", .obj [("test", .arr [.s "CMD", .s "mongosh",
            .s "--eval", .s "db.adminCommand('ping')"]),
          ("interval", .s "10s"), ("timeout", .s "5s"), ("retries", .n 5)]),
        ("networks", .arr [.s "local-docker-network"]),
        ("deploy", dbDeploy),
        ("labels", .obj [("com.plexverse.service", .s "mongodb"),
          ("com.plexverse.database.name", .s db_name)])]

/-- Lines 1039-1072: a PostgreSQL resource service. -/
def postgresSpec (db_name : String) : Yaml :=
  .obj [("image", .s "postgres:16"),
        ("ports", .arr [.obj [("target", .n 5432),
          ("published", .n (get_postgres_port db_name)),
          ("protocol", .s "tcp"), ("mode", .s "ingress")]]),
        ("environment", .obj [("POSTGRES_USER", .s "local-engine"),
          ("POSTGRES_PASSWORD", .s "local-engine"),
          ("POSTGRES_DB", .s db_name)]),
        ("volumes", .arr [.obj [("type", .s "volume"),
          ("source", .s ("postgres_data_" ++ db_name)),
          ("target", .s "/var/lib/postgresql/data")]]),
        ("healthcheck", .obj [("test", .arr [.s "CMD-SHELL",
            .s "pg_isready -U local-engine"]),
          ("interval", .s "10s"), ("timeout", .s "5s"), ("retries", .n 5)]),
        ("networks", .arr [.s "local-docker-network"]),
        ("deploy", dbDeploy),
        ("labels", .obj [("com.plexverse.service", .s "postgresql"),
          ("com.plexverse.database.name", .s db_name)])]

/-- Lines 1081-1115: a MySQL resource service. -/
def mysqlSpec (db_name : String) : Yaml :=
  .obj [("image", .s "mysql:8.0"),
        ("ports", .arr [.obj [("target", .n 3306),
          ("published", .n (get_mysql_port db_name)),
          ("protocol", .s "tcp"), ("mode", .s "ingress")]]),
        ("environment", .obj [("MYSQL_ROOT_PASSWORD", .s "local-engine"),
          ("MYSQL_USER", .s "local-engine"),
          ("MYSQL_PASSWORD", .s "local-engine"),
          ("MYSQL_DATABASE", .s db_name)]),
        ("volumes", .arr [.obj [("type", .s "volume"),
          ("source", .s ("mysql_data_" ++ db_name)),
          ("target", .s "/var/lib/mysql")]]),
        ("healthcheck", .obj [("test", .arr [.s "CMD", .s "mysqladmin",
            .s "ping", .s "-h", .s "localhost", .s "-u", .s "local-engine",
            .s "-plocal-engine"]),
          ("interval", .s "10s"), ("timeout", .s "5s"), ("retries", .n 5)]),
        ("networks", .arr [.s "local-docker-network"]),
        ("deploy", dbDeploy),
        ("labels", .obj [("com.plexverse.service", .s "mysql"),
          ("com.plexverse.database.name", .s db_name)])]

/-- Lines 1119-1153: the Velocity proxy service created when absent. -/
def velocitySpec : Yaml :=
  .obj [("build", .obj [("context", .s "./velocity"),
          ("dockerfile", .s "Dockerfile")]),
        ("image", .s "local-velocity:latest"),
        ("ports", .arr [.obj [("target", .n 25565), ("published", .n 25565),
          ("protocol", .s "tcp"), ("mode", .s "ingress")]]),
        ("environment", .obj [("VELOCITY_FORWARDING_SECRET", .s "local-dev-secret"),
          ("VELOCITY_ONLINE_MODE", .s "true"), ("VELOCITY_PORT", .s "25565")]),
        ("volumes", .arr [.obj [("type", .s "bind"), ("source", .s "./velocity"),
            ("target", .s "/config")],
          .obj [("type", .s "bind"), ("source", .s "/var/run/docker.sock"),
            ("target", .s "/var/run/docker.sock"), ("read_only", .b true)]]),
        ("networks", .arr [.s "local-docker-network"]),
        ("deploy", .obj [("replicas", .n 1),
          ("restart_policy", restartPolicyObj),
          ("placement", .obj [("constraints", .arr [])])]),
        ("labels", .obj [("com.plexverse.service", .s "velocity-proxy")])]

def mongoDbs (dbs : List DbInfo) : List DbInfo :=
  dbs.filter (fun db => db.dbType = "MONGO")

def postgresDbs (dbs : List DbInfo) : List DbInfo :=
  dbs.filter (fun db => db.dbType = "POSTGRES" || db.dbType = "POSTGRESQL")

def mysqlDbs (dbs : List DbInfo) : List DbInfo :=
  dbs.filter (fun db => db.dbType = "MYSQL")

/-- Lines 708-723: keep only the infrastructure services of the prior
file, stamping deploy.replicas into each. -/
def preservedServices (services : List (String × Yaml)) : List (String × Yaml) :=
  (services.filter (fun kv => decide (kv.1 ∈ infrastructure_services))).map
    (fun kv => (kv.1, ensureReplicas kv.2))

/-- Lines 726-837: insert one managed entry per built project. -/
def addProjectServices (projects : List ProjectInfo)
    (acc : List (String × Yaml)) : List (String × Yaml) :=
  projects.foldl (fun acc p => assocSet acc (mcServiceName p) (mcServiceSpec p)) acc

/-- Lines 990-1031: MongoDB resource services, added when absent. -/
def addMongoServices (dbs : List DbInfo) (acc : List (String × Yaml)) :
    List (String × Yaml) :=
  (mongoDbs dbs).foldl (fun acc db =>
    if assocMem acc ("mongo-" ++ db.name) then acc
    else assocSet acc ("mongo-" ++ db.name) (mongoSpec db.name)) acc

/-- Lines 1034-1073: PostgreSQL resource services, added when absent. -/
def addPostgresServices (dbs : List DbInfo) (acc : List (String × Yaml)) :
    List (String × Yaml) :=
  (postgresDbs dbs).foldl (fun acc db =>
    if assocMem acc ("postgres-" ++ db.name) then acc
    else assocSet acc ("postgres-" ++ db.name) (postgresSpec db.name)) acc

/-- Lines 1076-1116: MySQL resource services, added when absent. -/
def addMysqlServices (dbs : List DbInfo) (acc : List (String × Yaml)) :
    List (String × Yaml) :=
  (mysqlDbs dbs).foldl (fun acc db =>
    if assocMem acc ("mysql-" ++ db.name) then acc
    else assocSet acc ("mysql-" ++ db.name) (mysqlSpec db.name)) acc

/-- Lines 1118-1153: ensure the Velocity proxy service exists. -/
def ensureVelocity (acc : List (String × Yaml)) : List (String × Yaml) :=
  if assocMem acc "velocity" then acc else assocSet acc "velocity" velocitySpec

/-- Lines 1155-1160: ensure the shared network exists. -/
def mergeNetworks (networks : List (String × Yaml)) (use_swarm : Bool) :
    List (String × Yaml) :=
  if assocMem networks "local-docker-network" then networks
  else assocSet networks "local-docker-network"
    (if use_swarm then .obj [("driver", .s "overlay"), ("attachable", .b true)]
     else .obj [("driver", .s "bridge")])

/-- Lines 1175-1177: a volume per MongoDB resource service of this run. -/
def addMongoVolumes (dbs : List DbInfo) (vols : List (String × Yaml)) :
    List (String × Yaml) :=
  (mongoDbs dbs).foldl (fun acc db =>
    assocSet acc ("mongodb_data_" ++ db.name) Yaml.null) vols

/-- Lines 1178-1180: a volume per PostgreSQL resource service of this run. -/
def addPostgresVolumes (dbs : List DbInfo) (vols : List (String × Yaml)) :
    List (String × Yaml) :=
  (postgresDbs dbs).foldl (fun acc db =>
    assocSet acc ("postgres_data_" ++ db.name) Yaml.null) vols

/-- Lines 1181-1183: a volume per MySQL resource service of this run. -/
def addMysqlVolumes (dbs : List DbInfo) (vols : List (String × Yaml)) :
    List (String × Yaml) :=
  (mysqlDbs dbs).foldl (fun acc db =>
    assocSet acc ("mysql_data_" ++ db.name) Yaml.null) vols

/-- Lines 698-1188: the merge itself. Prior state is None when the base
compose file does not exist (lines 708, 1168-1172: absent sections read as
empty mappings). -/
def create_docker_compose (projects : List ProjectInfo)
    (prior : Option ComposeData) (use_swarm : Bool) (dbs : List DbInfo) :
    ComposeData :=
  let all := prior.getD ⟨[], [], []⟩
  ⟨ensureVelocity (addMysqlServices dbs (addPostgresServices dbs
      (addMongoServices dbs (addProjectServices projects
        (preservedServices all.services))))),
   mergeNetworks all.networks use_swarm,
   addMysqlVolumes dbs (addPostgresVolumes dbs
     (addMongoVolumes dbs all.volumes))⟩

/-! ## Sample data used by witnesses and counterexamples. -/

def gdSample : GameData :=
  ⟨"bedwars", "bw-namespace", some "BedWars", some "BedWars Deluxe",
   ["PROTOCOLLIB"], []⟩

def gdC8 : GameData :=
  ⟨"lobby", "", some "Lobby", some "SkyWars Deluxe", [], []⟩

def envSuccess : BuildEnv :=
  ⟨"bedwars", true, true, gdSample, true, true, (fun _ => true), true, false⟩

def envJarFail : BuildEnv :=
  ⟨"bedwars", true, true, gdSample, true, false, (fun _ => true), true, false⟩

def envC8 : BuildEnv :=
  ⟨"lobby-dir", true, true, gdC8, true, true, (fun _ => true), true, false⟩

/-! ## Claim C3: persistence of the merged topology. -/

/-- C3 counterexample: with prior content "services: velocity" and new
content "services: lobby", interrupting the persistence right after the
file is opened (the one-operation prefix of the write sequence) leaves a
file that is neither the prior nor the new topology, refuting the claim
that the write goes to a separate location and an interruption at any
point leaves the prior valid topology readable. -/
theorem c3_atomicity_counterexample :
    ¬ (runOps "services: velocity" ((persistOps "services: lobby").take 1)
          = "services: velocity" ∨
       runOps "services: velocity" ((persistOps "services: lobby").take 1)
          = "services: lobby") := by
  decide

/-- C3 (corrected): the merged topology is persisted by truncating the
compose file in place and writing the new content into it; a completed
write leaves exactly the new content, while an interruption right after
opening leaves an empty file. -/
theorem c3_persist_overwrites_in_place (old new : String) :
    runOps old (persistOps new) = new ∧
    runOps old ((persistOps new).take 1) = "" := by
  constructor
  · show "" ++ new = new
    simp
  · rfl

/-! ## Claim C4: deterministic database ports. -/

set_option maxRecDepth 16000 in
/-- C4 (confirmed): every database port is a pure function of the declared
name alone, computed as the type-specific base port (27018 for MongoDB,
5433 for PostgreSQL, 3307 for MySQL) plus the MD5 digest of the UTF-8
encoded name modulo 100; the same name always yields the same port, and
the distinct names "games" and "economy" collide on the same MongoDB port
with no failure. -/
theorem c4_port_pure_hash_of_name :
    (∀ name : String,
        get_mongo_port name = 27018 + md5Int (strBytes name) % 100) ∧
    (∀ name : String,
        get_postgres_port name = 5433 + md5Int (strBytes name) % 100) ∧
    (∀ name : String,
        get_mysql_port name = 3307 + md5Int (strBytes name) % 100) ∧
    (∀ n1 n2 : String, n1 = n2 → get_mongo_port n1 = get_mongo_port n2) ∧
    (get_mongo_port "games" = get_mongo_port "economy" ∧
      ("games" : String) ≠ "economy") := by
  refine ⟨fun _ => rfl, fun _ => rfl, fun _ => rfl,
    fun n1 n2 h => by rw [h], ?_, ?_⟩
  · decide
  · decide

set_option maxRecDepth 16000 in
/-- Witness for C4: the port formula and the determinism conjunct
evaluated at the concrete name "stats". -/
theorem c4_port_pure_hash_of_name_witness :
    get_mongo_port "stats" = 27018 + md5Int (strBytes "stats") % 100 ∧
    get_mongo_port "stats" = get_mongo_port "stats" :=
  ⟨c4_port_pure_hash_of_name.1 "stats",
   c4_port_pure_hash_of_name.2.2.2.1 "stats" "stats" rfl⟩

/-! ## Claim C7: sanitization idempotence, with Python's Unicode casing.

The sanitizers of lines 354/547/732/737 call Python's Unicode-aware
str.isalnum and str.lower. The model below captures them exactly on the
ASCII range and on the two non-ASCII code points the statements exercise:
U+0130 (LATIN CAPITAL LETTER I WITH DOT ABOVE), which is alphanumeric and
whose lower-case is the TWO-character sequence U+0069 U+0307 (Unicode
SpecialCasing), and U+0307 (COMBINING DOT ABOVE), which is not
alphanumeric. One-to-many lowering makes str.lower a character-to-list
map. No statement below evaluates the model on any other non-ASCII
character. -/

/-- Python's str.isalnum per character: ASCII alphanumerics, plus the
alphabetic U+0130; U+0307 and the other modelled characters are not
alphanumeric. -/
def pyIsAlnumChar (c : Char) : Bool :=
  (48 ≤ c.toNat && c.toNat ≤ 57) || (65 ≤ c.toNat && c.toNat ≤ 90) ||
  (97 ≤ c.toNat && c.toNat ≤ 122) || c.toNat = 304

/-- The filter of lines 354/547/732/737: c.isalnum() or c in a pair of
hyphen and underscore. -/
def pyAllowedChar (c : Char) : Bool :=
  pyIsAlnumChar c || c.toNat = 45 || c.toNat = 95

/-- Python's str.lower per character: U+0130 lowers to U+0069 U+0307, an
ASCII capital letter to its lower-case letter, everything else modelled is
fixed. -/
def pyLowerChar (c : Char) : List Char :=
  if c.toNat = 304 then [Char.ofNat 105, Char.ofNat 775]
  else if 65 ≤ c.toNat ∧ c.toNat ≤ 90 then [Char.ofNat (c.toNat + 32)]
  else [c]

/-- Python's str.lower on a character list: concatenate the per-character
lowerings. -/
def pyLowerList (l : List Char) : List Char :=
  (l.map pyLowerChar).flatten

/-- Lines 354 / 732 with Python semantics: keep only the allowed
characters (no lowering). -/
def pySanitizeKeep (s : String) : String :=
  ⟨s.data.filter pyAllowedChar⟩

def pySanitizeIdList (l : List Char) : List Char :=
  pyLowerList (l.filter pyAllowedChar)

/-- Line 547 with Python semantics: filter the allowed characters, then
lower-case the joined string. -/
def pySanitizeId (s : String) : String :=
  ⟨pySanitizeIdList s.data⟩

/-- Line 737 with Python semantics: lower-case the string, then filter the
allowed characters. -/
def pySanitizeServiceLower (s : String) : String :=
  ⟨(pyLowerList s.data).filter pyAllowedChar⟩

theorem pyLowerChar_ascii (c : Char) (hA : c.toNat < 128) :
    ∃ d : Char, pyLowerChar c = [d] ∧ d.toNat < 128 ∧ pyLowerChar d = [d] ∧
      (pyAllowedChar c = true → pyAllowedChar d = true) := by
  unfold pyLowerChar
  have h304 : ¬ (c.toNat = 304) := by omega
  rw [if_neg h304]
  by_cases hup : 65 ≤ c.toNat ∧ c.toNat ≤ 90
  · rw [if_pos hup]
    have htn : (Char.ofNat (c.toNat + 32)).toNat = c.toNat + 32 :=
      toNat_ofNat_valid _ (by omega)
    refine ⟨Char.ofNat (c.toNat + 32), rfl, by rw [htn]; omega, ?_, ?_⟩
    · rw [if_neg (by rw [htn]; omega), if_neg (by rw [htn]; omega)]
    · intro _
      simp only [pyAllowedChar, pyIsAlnumChar, htn, Bool.or_eq_true,
        Bool.and_eq_true, decide_eq_true_eq]
      omega
  · rw [if_neg hup]
    refine ⟨c, rfl, hA, ?_, fun h => h⟩
    rw [if_neg h304, if_neg hup]

theorem flatten_map_of_fixed {α : Type} (f : α → List α) :
    ∀ l : List α, (∀ a ∈ l, f a = [a]) → (l.map f).flatten = l := by
  intro l
  induction l with
  | nil => intro _; rfl
  | cons a rest ih =>
      intro h
      rw [List.map_cons, List.flatten_cons, h a (by simp),
        ih (fun b hb => h b (by simp [hb])), List.singleton_append]

theorem mem_flatten_map {α β : Type} {f : α → List β} {l : List α} {d : β}
    (h : d ∈ (l.map f).flatten) : ∃ c ∈ l, d ∈ f c := by
  rw [List.mem_flatten] at h
  obtain ⟨L, hL, hdL⟩ := h
  rw [List.mem_map] at hL
  obtain ⟨c, hc, rfl⟩ := hL
  exact ⟨c, hc, hdL⟩

theorem pySanitizeIdList_chars {l : List Char}
    (hA : ∀ c ∈ l, c.toNat < 128) :
    ∀ d ∈ pySanitizeIdList l, pyAllowedChar d = true ∧ pyLowerChar d = [d] := by
  intro d hd
  obtain ⟨c, hc, hdc⟩ := mem_flatten_map hd
  have hcl := List.mem_filter.mp hc
  obtain ⟨e, hce, _, heFix, hImp⟩ := pyLowerChar_ascii c (hA c hcl.1)
  rw [hce, List.mem_singleton] at hdc
  subst hdc
  exact ⟨hImp hcl.2, heFix⟩

theorem pyLowerList_chars {l : List Char} (hA : ∀ c ∈ l, c.toNat < 128) :
    ∀ d ∈ pyLowerList l, pyLowerChar d = [d] := by
  intro d hd
  obtain ⟨c, hc, hdc⟩ := mem_flatten_map hd
  obtain ⟨e, hce, _, heFix, _⟩ := pyLowerChar_ascii c (hA c hc)
  rw [hce, List.mem_singleton] at hdc
  subst hdc
  exact heFix

/-- C7 counterexample: the line-547 sanitizer with Python's Unicode
semantics is not idempotent: on the one-character string İ (U+0130,
alphanumeric) one application yields the two characters i and U+0307
(combining dot above, not alphanumeric), and a second application drops
the combining mark, leaving plain i — so sanitize(sanitize(x)) differs
from sanitize(x), refuting the claim quantified over every input
string. -/
theorem c7_idempotence_counterexample :
    ¬ (pySanitizeId (pySanitizeId "İ") = pySanitizeId "İ") := by
  decide

/-- C7 (corrected): the sanitizers are deterministic (pure functions of
their input), the plain keep-filter of lines 354/732 is idempotent on
every string, and the lower-casing sanitizers of line 547 (filter then
lower) and line 737 (lower then filter) are idempotent on every string of
ASCII characters; on full Unicode input idempotence of the line-547
sanitizer fails (see the counterexample at İ). -/
theorem c7_sanitize_idempotent_on_ascii (s : String) :
    pySanitizeKeep (pySanitizeKeep s) = pySanitizeKeep s ∧
    (∀ t : String, s = t → pySanitizeId s = pySanitizeId t) ∧
    (s.data.all (fun c => c.toNat < 128) = true →
      pySanitizeId (pySanitizeId s) = pySanitizeId s ∧
      pySanitizeServiceLower (pySanitizeServiceLower s)
        = pySanitizeServiceLower s) := by
  refine ⟨?_, fun t h => by rw [h], fun hascii => ⟨?_, ?_⟩⟩
  · show (⟨(s.data.filter pyAllowedChar).filter pyAllowedChar⟩ : String)
        = ⟨s.data.filter pyAllowedChar⟩
    rw [filter_eq_self_of_mem _ _ (fun c hc => List.of_mem_filter hc)]
  · have hA : ∀ c ∈ s.data, c.toNat < 128 := by
      intro c hc
      exact by simpa using (List.all_eq_true.mp hascii) c hc
    have hchars := pySanitizeIdList_chars hA
    show (⟨pySanitizeIdList (pySanitizeIdList s.data)⟩ : String)
        = ⟨pySanitizeIdList s.data⟩
    apply congrArg String.mk
    have hstep : pySanitizeIdList (pySanitizeIdList s.data)
        = pyLowerList ((pySanitizeIdList s.data).filter pyAllowedChar) := rfl
    rw [hstep,
      filter_eq_self_of_mem _ _ (fun d hd => (hchars d hd).1)]
    exact flatten_map_of_fixed _ _ (fun d hd => (hchars d hd).2)
  · have hA : ∀ c ∈ s.data, c.toNat < 128 := by
      intro c hc
      exact by simpa using (List.all_eq_true.mp hascii) c hc
    show (⟨(pyLowerList ((pyLowerList s.data).filter pyAllowedChar)).filter
            pyAllowedChar⟩ : String)
        = ⟨(pyLowerList s.data).filter pyAllowedChar⟩
    apply congrArg String.mk
    have hfix : ∀ d ∈ (pyLowerList s.data).filter pyAllowedChar,
        pyLowerChar d = [d] := by
      intro d hd
      exact pyLowerList_chars hA d (List.mem_of_mem_filter hd)
    have hlow : pyLowerList ((pyLowerList s.data).filter pyAllowedChar)
        = (pyLowerList s.data).filter pyAllowedChar :=
      flatten_map_of_fixed _ _ hfix
    rw [hlow,
      filter_eq_self_of_mem _ _ (fun c hc => List.of_mem_filter hc)]

/-- Witness for C7: the amended idempotence evaluated at the ASCII project
name BedWars_1, discharging the ASCII hypothesis and the determinism
hypothesis at concrete inputs. -/
theorem c7_sanitize_idempotent_on_ascii_witness :
    pySanitizeKeep (pySanitizeKeep "BedWars_1") = pySanitizeKeep "BedWars_1" ∧
    pySanitizeId "BedWars_1" = pySanitizeId "BedWars_1" ∧
    pySanitizeId (pySanitizeId "BedWars_1") = pySanitizeId "BedWars_1" ∧
    pySanitizeServiceLower (pySanitizeServiceLower "BedWars_1")
      = pySanitizeServiceLower "BedWars_1" := by
  have h := c7_sanitize_idempotent_on_ascii "BedWars_1"
  exact ⟨h.1, h.2.1 "BedWars_1" rfl, (h.2.2 (by decide)).1,
    (h.2.2 (by decide)).2⟩

/-! ## Claim C10: library download failures never fail the build task. -/

/-- C10 (confirmed): the build task's result does not depend on the
per-library download outcomes (their Boolean results are discarded at
lines 428-433), and download_plugin returns False, rather than raising,
for a library name with no configured sources. -/
theorem c10_library_downloads_isolated
    (dn : String) (de gp : Bool) (gd : GameData) (eb pj dk re : Bool)
    (f g : String → Bool) (port : Nat) (net : DownloadEnv) :
    (build_project_image ⟨dn, de, gp, gd, eb, pj, f, dk, re⟩ port).result
      = (build_project_image ⟨dn, de, gp, gd, eb, pj, g, dk, re⟩ port).result
    ∧ (∀ lib : String, assocGet? plugin_configs lib = none →
        download_plugin lib net = false) := by
  constructor
  · rfl
  · intro lib h
    simp [download_plugin, h]

/-- Witness for C10: two concrete environments differing only in the
library download outcomes give the same result, and the unknown library
WORLDEDIT downloads as False without failing. -/
theorem c10_library_downloads_isolated_witness :
    (build_project_image
        ⟨"bedwars", true, true, gdSample, true, true, (fun _ => false), true,
         false⟩ 25565).result
      = (build_project_image
        ⟨"bedwars", true, true, gdSample, true, true, (fun _ => true), true,
         false⟩ 25565).result
    ∧ download_plugin "WORLDEDIT" ⟨true, true, true⟩ = false := by
  have h := c10_library_downloads_isolated "bedwars" true true gdSample
    true true true false (fun _ => false) (fun _ => true) 25565
    ⟨true, true, true⟩
  exact ⟨h.1, h.2 "WORLDEDIT" rfl⟩

/-! ## Claim C9: failure handling of the build task workspace. -/

/-- C9 counterexample: a concrete environment in which the project-jar
build step fails: the task returns None (there is no typed failure value
identifying the step) and the scratch workspace that was created is not
removed, refuting the claim that on any step failure the workspace is
removed before the task returns. -/
theorem c9_cleanup_counterexample :
    ¬ ((build_project_image envJarFail 25565).result = none →
        (build_project_image envJarFail 25565).workspaceRemoved = true) := by
  decide

/-- C9 (corrected): on failure the task returns None rather than a typed
failure, and the scratch workspace is removed exactly when an exception is
raised inside the try block after the workspace was created (the rmtree of
lines 603-607); failures signalled by early return leave the workspace in
place, and on success it is retained. -/
theorem c9_workspace_removed_only_on_exception (env : BuildEnv) (port : Nat) :
    ((build_project_image env port).result.isSome →
        (build_project_image env port).workspaceRemoved = false) ∧
    ((build_project_image env port).workspaceRemoved = true ↔
        env.raisesException = true ∧
        (build_project_image env port).workspaceCreated = true) := by
  obtain ⟨dn, de, gp, gd, eb, pj, f, dk, re⟩ := env
  cases de <;> cases gp <;> cases re <;> cases eb <;> cases pj <;> cases dk <;>
    by_cases h3 : gd.project_id = "" <;>
      simp_all [build_project_image]

/-- Witness for C9: the concrete successful environment retains its
workspace, and the removal condition evaluates as the theorem states. -/
theorem c9_workspace_removed_only_on_exception_witness :
    (build_project_image envSuccess 25565).workspaceRemoved = false ∧
    ((build_project_image envSuccess 25565).workspaceRemoved = true ↔
        envSuccess.raisesException = true ∧
        (build_project_image envSuccess 25565).workspaceCreated = true) :=
  ⟨(c9_workspace_removed_only_on_exception envSuccess 25565).1 (by decide),
   (c9_workspace_removed_only_on_exception envSuccess 25565).2⟩

/-! ## Claim C8: the identity marker file. -/

/-- Modelled from the claim's words, for comparison only: the container
name obtained by sanitizing the project's display name to the allowed
character set. -/
def specContainerFromDisplayName (gd : GameData) : String :=
  sanitizeKeep (gd.display_name.getD "") ++ "-1"

/-- C8 counterexample: a successfully processed project whose manifest
game name is "Lobby" and display name "SkyWars Deluxe": the identity
marker records "Lobby-1", which is not the container name derived from the
display name, refuting the claim as stated. -/
theorem c8_marker_counterexample :
    ¬ ((build_project_image envC8 25565).result.isSome →
        (build_project_image envC8 25565).markerContent
          = some (specContainerFromDisplayName envC8.gameData)) := by
  decide

/-- C8 (corrected): for every successfully processed project the single
line written to the identity marker file is the deterministic container
name derived from the manifest's game name (game.name, with the project
directory name as fallback), sanitized to the allowed character set, with
the "-1" suffix. -/
theorem c8_marker_records_game_name (env : BuildEnv) (port : Nat) :
    (build_project_image env port).result.isSome →
    (build_project_image env port).markerContent
      = some (containerNameOf env.gameData env.directoryName) := by
  obtain ⟨dn, de, gp, gd, eb, pj, f, dk, re⟩ := env
  cases de <;> cases gp <;> cases re <;> cases eb <;> cases pj <;> cases dk <;>
    by_cases h3 : gd.project_id = "" <;>
      simp_all [build_project_image]

/-- Witness for C8: the successful concrete environment writes the marker
derived from the game name. -/
theorem c8_marker_records_game_name_witness :
    (build_project_image envC8 25565).markerContent
      = some (containerNameOf envC8.gameData envC8.directoryName) :=
  c8_marker_records_game_name envC8 25565 (by decide)

/-! ## Claim C5: first-wins deduplication of database configurations. -/

/-- C5 (confirmed): across all projects in the fixed iteration order, the
database scan keeps at most one configuration per declared name (the
output names carry no duplicate), and every kept entry is the first valid
manifest with that name in the flattened scan order — so a later manifest
with the same name, even of a different store type, is skipped while the
batch completes normally. -/
theorem c5_first_manifest_wins (projects : List ScanProject) :
    ((create_databases_from_configs projects).map DbInfo.name).Nodup ∧
    ∀ d, d ∈ create_databases_from_configs projects →
      (validEntries (flattenManifests projects)).find?
        (fun e => e.name == d.name) = some d := by
  have hflat : create_databases_from_configs projects
      = dedupFirst [] (validEntries (flattenManifests projects)) := by
    unfold create_databases_from_configs
    rw [foldl_manifests_eq_flat]
    have h := (flatStep_spec (flattenManifests projects) [] []).1
    simpa using h
  rw [hflat]
  constructor
  · exact dedupFirst_names_nodup _ []
  · intro d hd
    exact dedupFirst_find _ [] d hd (by simp)

def scanProjA : ScanProject := ⟨"projA", [("stats.yaml", some ⟨"stats", "mongo"⟩)]⟩

def scanProjB : ScanProject := ⟨"projB", [("stats.yml", some ⟨"stats", "MYSQL"⟩)]⟩

/-- Witness for C5: two projects declare the name "stats" with different
store types; the kept entry is the MongoDB one from the first project. -/
theorem c5_first_manifest_wins_witness :
    (validEntries (flattenManifests [scanProjA, scanProjB])).find?
      (fun e => e.name == "stats")
      = some ⟨"stats", "MONGO", "stats.yaml", "projA"⟩ :=
  (c5_first_manifest_wins [scanProjA, scanProjB]).2
    ⟨"stats", "MONGO", "stats.yaml", "projA"⟩ (by decide)

/-! ## Lemmas about the merge stages. -/

theorem ensureReplicas_of_has (y : Yaml) (h : hasDeployReplicas y = true) :
    ensureReplicas y = y := by
  cases y with
  | obj fields =>
      simp only [hasDeployReplicas] at h
      simp only [ensureReplicas]
      rcases hdep : assocGet? fields "deploy" with _ | d
      · rw [hdep] at h; simp at h
      · rw [hdep] at h
        cases d with
        | obj dd =>
            simp only at h
            have hmem : assocMem fields "deploy" = true := by
              simp [assocMem, hdep]
            simp only [hmem, if_true, hdep, h, if_pos]
        | null => simp at h
        | b v => simp at h
        | n v => simp at h
        | s v => simp at h
        | arr items => simp at h
  | null => simp [hasDeployReplicas] at h
  | b v => simp [hasDeployReplicas] at h
  | n v => simp [hasDeployReplicas] at h
  | s v => simp [hasDeployReplicas] at h
  | arr items => simp [hasDeployReplicas] at h

theorem assocGet?_preservedServices (services : List (String × Yaml))
    (name : String) (hm : name ∈ infrastructure_services) :
    assocGet? (preservedServices services) name
      = (assocGet? services name).map ensureReplicas := by
  induction services with
  | nil => rfl
  | cons kv rest ih =>
      obtain ⟨k, v⟩ := kv
      by_cases hk : k = name
      · subst hk
        simp [preservedServices, List.filter_cons, hm, assocGet?]
      · simp only [preservedServices, List.filter_cons] at *
        by_cases hp : k ∈ infrastructure_services
        · simp [hp, assocGet?, hk, ih]
        · simp [hp, assocGet?, hk, ih]

theorem assocGet?_foldl_assocSet {β : Type} (key : β → String)
    (val : β → Yaml) (xs : List β) (name : String)
    (h : ∀ x ∈ xs, key x ≠ name) :
    ∀ acc, assocGet?
        (xs.foldl (fun a x => assocSet a (key x) (val x)) acc) name
      = assocGet? acc name := by
  induction xs with
  | nil => intro acc; rfl
  | cons x rest ih =>
      intro acc
      rw [List.foldl_cons]
      rw [ih (fun q hq => h q (by simp [hq]))]
      exact assocGet?_assocSet_ne _ _ _ _ (h x (by simp))

theorem assocGet?_foldl_guarded {β : Type} (key : β → String)
    (val : β → Yaml) (xs : List β) (name : String) :
    ∀ acc, (assocGet? acc name).isSome →
      assocGet? (xs.foldl (fun a x =>
          if assocMem a (key x) then a else assocSet a (key x) (val x)) acc)
        name = assocGet? acc name := by
  induction xs with
  | nil => intro acc _; rfl
  | cons x rest ih =>
      intro acc hs
      rw [List.foldl_cons]
      by_cases hm : assocMem acc (key x)
      · rw [if_pos hm, ih acc hs]
      · rw [if_neg hm]
        by_cases hk : key x = name
        · subst hk
          simp [assocMem] at hm
          rw [hm] at hs
          simp at hs
        · rw [ih _ (by rwa [assocGet?_assocSet_ne _ _ _ _ hk])]
          exact assocGet?_assocSet_ne _ _ _ _ hk

theorem assocGet?_addProjectServices (projects : List ProjectInfo)
    (name : String) (h : ∀ p ∈ projects, mcServiceName p ≠ name)
    (acc : List (String × Yaml)) :
    assocGet? (addProjectServices projects acc) name = assocGet? acc name :=
  assocGet?_foldl_assocSet mcServiceName mcServiceSpec projects name h acc

theorem assocGet?_addMongoServices (dbs : List DbInfo) (name : String)
    (acc : List (String × Yaml)) (hs : (assocGet? acc name).isSome) :
    assocGet? (addMongoServices dbs acc) name = assocGet? acc name :=
  assocGet?_foldl_guarded (fun db : DbInfo => "mongo-" ++ db.name)
    (fun db : DbInfo => mongoSpec db.name) (mongoDbs dbs) name acc hs

theorem assocGet?_addPostgresServices (dbs : List DbInfo) (name : String)
    (acc : List (String × Yaml)) (hs : (assocGet? acc name).isSome) :
    assocGet? (addPostgresServices dbs acc) name = assocGet? acc name :=
  assocGet?_foldl_guarded (fun db : DbInfo => "postgres-" ++ db.name)
    (fun db : DbInfo => postgresSpec db.name) (postgresDbs dbs) name acc hs

theorem assocGet?_addMysqlServices (dbs : List DbInfo) (name : String)
    (acc : List (String × Yaml)) (hs : (assocGet? acc name).isSome) :
    assocGet? (addMysqlServices dbs acc) name = assocGet? acc name :=
  assocGet?_foldl_guarded (fun db : DbInfo => "mysql-" ++ db.name)
    (fun db : DbInfo => mysqlSpec db.name) (mysqlDbs dbs) name acc hs

theorem assocGet?_ensureVelocity (acc : List (String × Yaml)) (name : String)
    (h : (assocGet? acc name).isSome) :
    assocGet? (ensureVelocity acc) name = assocGet? acc name := by
  unfold ensureVelocity
  by_cases hv : assocMem acc "velocity"
  · rw [if_pos hv]
  · rw [if_neg hv]
    by_cases hn : ("velocity" : String) = name
    · subst hn
      simp [assocMem] at hv
      rw [hv] at h
      simp at h
    · exact assocGet?_assocSet_ne _ _ _ _ hn

theorem assocGet?_foldl_setnull {β : Type} (key : β → String) (xs : List β)
    (name : String) :
    ∀ acc, assocGet?
        (xs.foldl (fun a x => assocSet a (key x) Yaml.null) acc) name
      = if name ∈ xs.map key then some Yaml.null else assocGet? acc name := by
  induction xs with
  | nil => intro acc; simp
  | cons x rest ih =>
      intro acc
      rw [List.foldl_cons, ih]
      by_cases hmem : name ∈ rest.map key
      · simp [hmem]
      · rw [if_neg hmem]
        by_cases hx : key x = name
        · subst hx
          simp [assocGet?_assocSet_same]
        · rw [assocGet?_assocSet_ne _ _ _ _ hx]
          have : ¬ name ∈ (x :: rest).map key := by
            simp only [List.map_cons, List.mem_cons]
            rintro (h | h)
            · exact hx h.symm
            · exact hmem h
          rw [if_neg this]

/-- The names of the volumes belonging to this run's recognized resource
services, in the order the merge adds them. -/
def resourceVolumeNames (dbs : List DbInfo) : List String :=
  (mongoDbs dbs).map (fun db => "mongodb_data_" ++ db.name)
  ++ (postgresDbs dbs).map (fun db => "postgres_data_" ++ db.name)
  ++ (mysqlDbs dbs).map (fun db => "mysql_data_" ++ db.name)

theorem assocGet?_addMongoVolumes (dbs : List DbInfo)
    (vols : List (String × Yaml)) (name : String) :
    assocGet? (addMongoVolumes dbs vols) name
      = if name ∈ (mongoDbs dbs).map (fun db => "mongodb_data_" ++ db.name)
        then some Yaml.null else assocGet? vols name :=
  assocGet?_foldl_setnull (fun db : DbInfo => "mongodb_data_" ++ db.name)
    (mongoDbs dbs) name vols

theorem assocGet?_addPostgresVolumes (dbs : List DbInfo)
    (vols : List (String × Yaml)) (name : String) :
    assocGet? (addPostgresVolumes dbs vols) name
      = if name ∈ (postgresDbs dbs).map (fun db => "postgres_data_" ++ db.name)
        then some Yaml.null else assocGet? vols name :=
  assocGet?_foldl_setnull (fun db : DbInfo => "postgres_data_" ++ db.name)
    (postgresDbs dbs) name vols

theorem assocGet?_addMysqlVolumes (dbs : List DbInfo)
    (vols : List (String × Yaml)) (name : String) :
    assocGet? (addMysqlVolumes dbs vols) name
      = if name ∈ (mysqlDbs dbs).map (fun db => "mysql_data_" ++ db.name)
        then some Yaml.null else assocGet? vols name :=
  assocGet?_foldl_setnull (fun db : DbInfo => "mysql_data_" ++ db.name)
    (mysqlDbs dbs) name vols

theorem assocGet?_mergedVolumes (dbs : List DbInfo)
    (vols : List (String × Yaml)) (name : String) :
    assocGet?
        (addMysqlVolumes dbs (addPostgresVolumes dbs (addMongoVolumes dbs vols)))
        name
      = if name ∈ resourceVolumeNames dbs then some Yaml.null
        else assocGet? vols name := by
  rw [assocGet?_addMysqlVolumes, assocGet?_addPostgresVolumes,
    assocGet?_addMongoVolumes]
  unfold resourceVolumeNames
  by_cases h1 : name ∈ (mysqlDbs dbs).map (fun db => "mysql_data_" ++ db.name) <;>
    by_cases h2 : name ∈ (postgresDbs dbs).map (fun db => "postgres_data_" ++ db.name) <;>
      by_cases h3 : name ∈ (mongoDbs dbs).map (fun db => "mongodb_data_" ++ db.name) <;>
        simp [h1, h2, h3, List.mem_append]

/-! ## Claim C2: preservation of infrastructure entries. -/

def kafkaPrior : Yaml := .obj [("image", .s "confluentinc/cp-kafka:7.4.0")]

def priorC2 : ComposeData := ⟨[("kafka", kafkaPrior)], [], []⟩

/-- C2 counterexample: a prior state whose kafka entry has no deploy
section, merged with an empty batch: the merged kafka entry is not the
prior one — the merge stamps deploy.replicas = 1 into it — refuting the
claim that every field of a preserved infrastructure entry is identical. -/
theorem c2_unchanged_counterexample :
    ¬ (assocGet? (create_docker_compose [] (some priorC2) false []).services
          "kafka" = some kafkaPrior) := by
  have h : assocGet? (create_docker_compose [] (some priorC2) false []).services
      "kafka" = some (ensureReplicas kafkaPrior) := rfl
  rw [h]
  intro heq
  have h2 := Option.some.inj heq
  rw [show ensureReplicas kafkaPrior
      = .obj [("image", .s "confluentinc/cp-kafka:7.4.0"),
              ("deploy", .obj [("replicas", .n 1)])] from rfl] at h2
  simp [kafkaPrior] at h2

/-- C2 (corrected): a prior infrastructure entry in the allow-list whose
name is not among the batch's managed service names is preserved with all
its fields, except that deploy.replicas = 1 is stamped in when absent: an
entry that already carries deploy.replicas is returned entirely
unchanged. -/
theorem c2_infrastructure_preserved
    (prior : ComposeData) (projects : List ProjectInfo) (use_swarm : Bool)
    (dbs : List DbInfo) (name : String) (spec : Yaml)
    (hinfra : name ∈ infrastructure_services)
    (hprior : assocGet? prior.services name = some spec)
    (hnoover : ∀ p ∈ projects, mcServiceName p ≠ name)
    (hrepl : hasDeployReplicas spec = true) :
    assocGet?
      (create_docker_compose projects (some prior) use_swarm dbs).services
      name = some spec := by
  show assocGet?
      (ensureVelocity (addMysqlServices dbs (addPostgresServices dbs
        (addMongoServices dbs (addProjectServices projects
          (preservedServices prior.services)))))) name = some spec
  have h0 : assocGet? (preservedServices prior.services) name = some spec := by
    rw [assocGet?_preservedServices _ _ hinfra, hprior]
    simp [ensureReplicas_of_has spec hrepl]
  have h1 : assocGet?
      (addProjectServices projects (preservedServices prior.services)) name
      = some spec := by
    rw [assocGet?_addProjectServices projects name hnoover, h0]
  have h2 : assocGet? (addMongoServices dbs
      (addProjectServices projects (preservedServices prior.services))) name
      = some spec := by
    rw [assocGet?_addMongoServices dbs name _ (by simp [h1]), h1]
  have h3 : assocGet? (addPostgresServices dbs (addMongoServices dbs
      (addProjectServices projects (preservedServices prior.services)))) name
      = some spec := by
    rw [assocGet?_addPostgresServices dbs name _ (by simp [h2]), h2]
  have h4 : assocGet? (addMysqlServices dbs (addPostgresServices dbs
      (addMongoServices dbs (addProjectServices projects
        (preservedServices prior.services))))) name = some spec := by
    rw [assocGet?_addMysqlServices dbs name _ (by simp [h3]), h3]
  rw [assocGet?_ensureVelocity _ _ (by simp [h4]), h4]

def zooSpecW : Yaml :=
  .obj [("image", .s "zookeeper:3.9"), ("deploy", .obj [("replicas", .n 1)])]

def priorC2w : ComposeData := ⟨[("zookeeper", zooSpecW)], [], []⟩

/-- Witness for C2: a prior zookeeper entry that already carries
deploy.replicas survives an empty-batch merge byte-identically. -/
theorem c2_infrastructure_preserved_witness :
    assocGet? (create_docker_compose [] (some priorC2w) false []).services
      "zookeeper" = some zooSpecW :=
  c2_infrastructure_preserved priorC2w [] false [] "zookeeper" zooSpecW
    (by decide) rfl (by simp) rfl

/-! ## Claim C6: volumes are never pruned. -/

def dbStats : DbInfo := ⟨"stats", "MONGO", "stats.yaml", "projA"⟩

def priorC6 : ComposeData :=
  ⟨[], [], [("mongodb_data_stats", .obj [("external", .b true)])]⟩

/-- C6 counterexample: the prior state defines the volume
mongodb_data_stats with a non-default configuration, and this run declares
the MongoDB resource "stats": the merged state maps that volume name to
the default null definition, so the prior volume definition is not present
in the merged mapping as the claim states. -/
theorem c6_volume_definition_counterexample :
    ¬ (assocGet? (create_docker_compose [] (some priorC6) false [dbStats]).volumes
          "mongodb_data_stats" = some (.obj [("external", .b true)])) := by
  have h : assocGet?
      (create_docker_compose [] (some priorC6) false [dbStats]).volumes
      "mongodb_data_stats" = some Yaml.null := rfl
  rw [h]
  intro heq
  have h2 := Option.some.inj heq
  simp at h2

/-- C6 (corrected): every volume name of the prior state remains present
in the merged volumes mapping (volumes are never pruned, even for resource
services absent from this run), and a volume entry is added for each
recognized resource service of this run; however a prior volume whose name
belongs to a resource service of this run has its definition reset to the
default null value rather than kept. -/
theorem c6_volumes_never_pruned
    (prior : ComposeData) (projects : List ProjectInfo) (use_swarm : Bool)
    (dbs : List DbInfo) (name : String) (v : Yaml)
    (hprior : assocGet? prior.volumes name = some v) :
    (assocGet?
        (create_docker_compose projects (some prior) use_swarm dbs).volumes
        name).isSome = true ∧
    (name ∉ resourceVolumeNames dbs →
      assocGet?
        (create_docker_compose projects (some prior) use_swarm dbs).volumes
        name = some v) ∧
    (∀ n ∈ resourceVolumeNames dbs,
      assocGet?
        (create_docker_compose projects (some prior) use_swarm dbs).volumes
        n = some Yaml.null) := by
  have hm : ∀ nm, assocGet?
      (create_docker_compose projects (some prior) use_swarm dbs).volumes nm
      = if nm ∈ resourceVolumeNames dbs then some Yaml.null
        else assocGet? prior.volumes nm :=
    fun nm => assocGet?_mergedVolumes dbs prior.volumes nm
  refine ⟨?_, ?_, ?_⟩
  · rw [hm name]
    by_cases hn : name ∈ resourceVolumeNames dbs
    · simp [hn]
    · simp [hn, hprior]
  · intro hn
    rw [hm name, if_neg hn, hprior]
  · intro n hn
    rw [hm n, if_pos hn]

def priorC6w : ComposeData := ⟨[], [], [("mongodb_data_old", Yaml.null)]⟩

/-- Witness for C6: a prior volume of a resource absent from this run is
kept with its definition, and this run's resource stats gets its volume. -/
theorem c6_volumes_never_pruned_witness :
    (assocGet?
        (create_docker_compose [] (some priorC6w) false [dbStats]).volumes
        "mongodb_data_old").isSome = true ∧
    assocGet? (create_docker_compose [] (some priorC6w) false [dbStats]).volumes
        "mongodb_data_old" = some Yaml.null ∧
    assocGet? (create_docker_compose [] (some priorC6w) false [dbStats]).volumes
        "mongodb_data_stats" = some Yaml.null := by
  have h := c6_volumes_never_pruned priorC6w [] false [dbStats]
    "mongodb_data_old" Yaml.null rfl
  exact ⟨h.1, h.2.1 (by decide), h.2.2 "mongodb_data_stats" (by decide)⟩

/-! ## Lemmas about the coordinator's result collection. -/

theorem mem_keys_iff_isSome {κ α : Type} [DecidableEq κ]
    (d : List (κ × α)) (k : κ) :
    k ∈ d.map Prod.fst ↔ (assocGet? d k).isSome = true := by
  induction d with
  | nil => simp [assocGet?]
  | cons kv rest ih =>
      obtain ⟨k0, v0⟩ := kv
      by_cases hk : k0 = k
      · subst hk; simp [assocGet?]
      · simp only [List.map_cons, List.mem_cons, ih, assocGet?, if_neg hk]
        constructor
        · rintro (rfl | h)
          · exact absurd rfl hk
          · exact h
        · intro h; exact Or.inr h

theorem keys_assocSet {κ α : Type} [DecidableEq κ]
    (d : List (κ × α)) (k : κ) (v : α) :
    (assocSet d k v).map Prod.fst
      = if k ∈ d.map Prod.fst then d.map Prod.fst
        else d.map Prod.fst ++ [k] := by
  induction d with
  | nil => simp [assocSet]
  | cons kv rest ih =>
      obtain ⟨k0, v0⟩ := kv
      by_cases hk : k0 = k
      · subst hk; simp [assocSet]
      · have hk2 : ¬ (k = k0) := fun h => hk h.symm
        simp only [assocSet, if_neg hk, List.map_cons, ih, List.mem_cons,
          hk2, false_or]
        by_cases hmem : k ∈ rest.map Prod.fst
        · simp [hmem]
        · simp [hmem]

theorem keys_nodup_assocSet {κ α : Type} [DecidableEq κ]
    (d : List (κ × α)) (k : κ) (v : α)
    (h : (d.map Prod.fst).Nodup) : ((assocSet d k v).map Prod.fst).Nodup := by
  rw [keys_assocSet]
  by_cases hm : k ∈ d.map Prod.fst
  · simp [hm, h]
  · simp [hm, List.nodup_append, h]

theorem assocGet?_collectFold {α : Type} (outcomes : List (Option α)) :
    ∀ (order : List Nat) (d : List (Nat × α)) (i : Nat),
      assocGet? (order.foldl (collectStep outcomes) d) i
        = if i ∈ order ∧ (outcomes.getD i none).isSome = true
          then outcomes.getD i none else assocGet? d i := by
  intro order
  induction order with
  | nil => intro d i; simp
  | cons j rest ih =>
      intro d i
      rw [List.foldl_cons, ih]
      by_cases hmem : i ∈ rest ∧ (outcomes.getD i none).isSome = true
      · rw [if_pos hmem, if_pos ⟨List.mem_cons_of_mem j hmem.1, hmem.2⟩]
      · rw [if_neg hmem]
        by_cases hj : j = i
        · subst hj
          cases hout : outcomes.getD j none with
          | some r =>
              have hstep : collectStep outcomes d j = assocSet d j r := by
                simp only [collectStep]
                rw [hout]
              rw [hstep, assocGet?_assocSet_same,
                if_pos ⟨List.mem_cons_self j rest, by simp [hout]⟩]
          | none =>
              have hstep : collectStep outcomes d j = d := by
                simp only [collectStep]
                rw [hout]
              rw [hstep, if_neg]
              rintro ⟨_, hs⟩
              simp [hout] at hs
        · have hstep : assocGet? (collectStep outcomes d j) i = assocGet? d i := by
            cases hout : outcomes.getD j none with
            | some r =>
                have hred : collectStep outcomes d j = assocSet d j r := by
                  simp only [collectStep]
                  rw [hout]
                rw [hred]
                exact assocGet?_assocSet_ne _ _ _ _ hj
            | none =>
                have hred : collectStep outcomes d j = d := by
                  simp only [collectStep]
                  rw [hout]
                rw [hred]
          rw [hstep, if_neg]
          rintro ⟨hmem2, hs⟩
          rcases List.mem_cons.mp hmem2 with rfl | hmem3
          · exact hj rfl
          · exact hmem ⟨hmem3, hs⟩

theorem collectFold_keys_nodup {α : Type} (outcomes : List (Option α)) :
    ∀ (order : List Nat) (d : List (Nat × α)),
      (d.map Prod.fst).Nodup →
      ((order.foldl (collectStep outcomes) d).map Prod.fst).Nodup := by
  intro order
  induction order with
  | nil => intro d h; exact h
  | cons j rest ih =>
      intro d h
      rw [List.foldl_cons]
      apply ih
      cases hout : outcomes.getD j none with
      | some r =>
          have hred : collectStep outcomes d j = assocSet d j r := by
            simp only [collectStep]
            rw [hout]
          rw [hred]
          exact keys_nodup_assocSet d j r h
      | none =>
          have hred : collectStep outcomes d j = d := by
            simp only [collectStep]
            rw [hout]
          rw [hred]
          exact h

theorem insertSorted_perm (n : Nat) :
    ∀ l : List Nat, (insertSorted n l).Perm (n :: l) := by
  intro l
  induction l with
  | nil => simp [insertSorted]
  | cons m rest ih =>
      by_cases h : n ≤ m
      · simp [insertSorted, h]
      · simp only [insertSorted, if_neg h]
        exact (ih.cons m).trans (List.Perm.swap n m rest)

theorem sortNat_perm : ∀ l : List Nat, (sortNat l).Perm l := by
  intro l
  induction l with
  | nil => simp [sortNat]
  | cons n rest ih =>
      exact (insertSorted_perm n (sortNat rest)).trans (ih.cons n)

theorem insertSorted_pairwise (n : Nat) :
    ∀ l : List Nat, l.Pairwise (· ≤ ·) →
      (insertSorted n l).Pairwise (· ≤ ·) := by
  intro l
  induction l with
  | nil => intro _; simp [insertSorted]
  | cons m rest ih =>
      intro h
      rw [List.pairwise_cons] at h
      by_cases hle : n ≤ m
      · simp only [insertSorted, if_pos hle]
        rw [List.pairwise_cons]
        constructor
        · intro b hb
          rcases List.mem_cons.mp hb with rfl | hb2
          · exact hle
          · exact Nat.le_trans hle (h.1 b hb2)
        · rw [List.pairwise_cons]
          exact h
      · simp only [insertSorted, if_neg hle]
        rw [List.pairwise_cons]
        constructor
        · intro b hb
          have hmem := (insertSorted_perm n rest).mem_iff.mp hb
          rcases List.mem_cons.mp hmem with rfl | hb2
          · omega
          · exact h.1 b hb2
        · exact ih h.2

theorem sortNat_pairwise : ∀ l : List Nat, (sortNat l).Pairwise (· ≤ ·) := by
  intro l
  induction l with
  | nil => simp [sortNat]
  | cons n rest ih => exact insertSorted_pairwise n (sortNat rest) ih

theorem filterMap_congr_mem {α β : Type} (f g : α → Option β) :
    ∀ l : List α, (∀ a ∈ l, f a = g a) → l.filterMap f = l.filterMap g := by
  intro l
  induction l with
  | nil => intro _; rfl
  | cons a rest ih =>
      intro h
      rw [List.filterMap_cons, List.filterMap_cons, h a (by simp),
        ih (fun b hb => h b (by simp [hb]))]

theorem filterMap_filter_isSome {α β : Type} (f : α → Option β) :
    ∀ l : List α,
      (l.filter (fun a => (f a).isSome)).filterMap f = l.filterMap f := by
  intro l
  induction l with
  | nil => rfl
  | cons a rest ih =>
      cases hf : f a with
      | some b => simp [List.filter_cons, List.filterMap_cons, hf, ih]
      | none => simp [List.filter_cons, List.filterMap_cons, hf, ih]

theorem filterMap_getD_range {α : Type} :
    ∀ outcomes : List (Option α),
      (List.range outcomes.length).filterMap (fun i => outcomes.getD i none)
        = outcomes.filterMap id := by
  intro outcomes
  induction outcomes with
  | nil => rfl
  | cons o rest ih =>
      rw [List.length_cons, List.range_succ_eq_map, List.filterMap_cons,
        List.filterMap_map]
      have hcomp : ((fun i => (o :: rest).getD i none) ∘ Nat.succ)
          = (fun i => rest.getD i none) := by
        funext i
        simp
      rw [hcomp, ih]
      cases o with
      | some a => simp [List.filterMap_cons]
      | none => simp [List.filterMap_cons]

/-! ## Claim C1: the coordinator's result ordering. -/

/-- C1 counterexample: a batch with one project whose build fails: the
result list handed to the merge is empty rather than holding one entry per
input project, refuting the claim that exactly N entries (one BuildResult
or one typed BuildFailure each) are returned. -/
theorem c1_exactly_n_counterexample :
    ¬ ((collectResults [(none : Option Nat)] [0]).length = 1) := by
  decide

/-- C1 (corrected): for every batch of N projects, the coordinator hands
the merge the list of the successful results only, ordered by the original
submission index regardless of the completion order of the futures: for
every completion order that is a permutation of the submission indices,
the collected list equals the in-order sequence of non-None outcomes;
failed projects leave no entry. -/
theorem collectResults_input_order {α : Type} (outcomes : List (Option α))
    (order : List Nat) (hperm : order.Perm (List.range outcomes.length)) :
    collectResults outcomes order = outcomes.filterMap id := by
  show (sortNat ((order.foldl (collectStep outcomes) []).map Prod.fst)).filterMap
      (fun i => assocGet? (order.foldl (collectStep outcomes) []) i)
    = outcomes.filterMap id
  have hlook : ∀ i : Nat, assocGet? (order.foldl (collectStep outcomes) []) i
      = if i ∈ order ∧ (outcomes.getD i none).isSome = true
        then outcomes.getD i none else none := by
    intro i
    rw [assocGet?_collectFold]
    rfl
  have hpermKeys :
      (sortNat ((order.foldl (collectStep outcomes) []).map Prod.fst)).Perm
        ((List.range outcomes.length).filter
          (fun i => (outcomes.getD i none).isSome)) := by
    apply (List.perm_ext_iff_of_nodup ?nd1 ?nd2).mpr
    case nd1 =>
      exact (sortNat_perm _).nodup_iff.mpr
        (collectFold_keys_nodup outcomes order [] (by simp))
    case nd2 =>
      exact (List.nodup_range _).filter _
    intro a
    rw [(sortNat_perm _).mem_iff, mem_keys_iff_isSome, hlook a,
      List.mem_filter, List.mem_range]
    by_cases ha : a ∈ order ∧ (outcomes.getD a none).isSome = true
    · rw [if_pos ha]
      constructor
      · intro _
        exact ⟨List.mem_range.mp (hperm.mem_iff.mp ha.1), ha.2⟩
      · intro _
        exact ha.2
    · rw [if_neg ha]
      constructor
      · intro h
        simp at h
      · rintro ⟨hlt, hs⟩
        exact absurd ⟨hperm.mem_iff.mpr (List.mem_range.mpr hlt), hs⟩ ha
  have hkeysSorted :
      sortNat ((order.foldl (collectStep outcomes) []).map Prod.fst)
      = (List.range outcomes.length).filter
          (fun i => (outcomes.getD i none).isSome) := by
    have hs1 : List.Sorted (· ≤ ·)
        (sortNat ((order.foldl (collectStep outcomes) []).map Prod.fst)) := by
      exact sortNat_pairwise _
    have hs2 : List.Sorted (· ≤ ·)
        ((List.range outcomes.length).filter
          (fun i => (outcomes.getD i none).isSome)) := by
      exact (List.pairwise_le_range _).filter _
    exact List.eq_of_perm_of_sorted hpermKeys hs1 hs2
  rw [hkeysSorted,
    filterMap_congr_mem _ (fun i => outcomes.getD i none) _ ?hcong,
    filterMap_filter_isSome, filterMap_getD_range]
  case hcong =>
    intro a ha
    have hmem := List.mem_filter.mp ha
    rw [hlook a,
      if_pos ⟨hperm.mem_iff.mpr hmem.1, by simpa using hmem.2⟩]

/-- Witness for C1: three submitted projects of which the second fails,
completing in the order 2, 0, 1: the collected list is the in-order
successes 10 then 20. -/
theorem collectResults_input_order_witness :
    collectResults [some 10, none, some 20] [2, 0, 1] = [10, 20] :=
  (collectResults_input_order [some 10, none, some 20] [2, 0, 1]
    (by decide)).trans (by decide)

end LocalDocker
